import Mathlib

/-!
Verification of the `tfr-win` repository: a single-page app that sends a
content image (and optional style-reference image) to a hosted image
generation model and renders the returned image.

The development shallowly embeds the two source files:
* `src/services/geminiService.ts` (namespace `GeminiService`): request part
  construction, response handling, and error normalization of
  `generateChibiStyle`.  The external API call is modelled by passing its
  outcome (`Except String GenResponse`) as an explicit argument; a thrown
  transport error is an `Except.error` carrying the error message.
* `src/App.tsx`, read-only-prompt variant, together with `types.ts`
  (namespace `App`): UI state, file intake validation, generate / clear /
  download handlers, modelled as pure state-transition functions.

JavaScript string truthiness (empty string is falsy) is modelled explicitly
wherever the source relies on it.
-/

namespace GeminiService

/-- JS truthiness of a `string | null | undefined` value: `null`/`undefined`
and the empty string are falsy. -/
def jsTruthy : Option String → Bool
  | some s => s ≠ ""
  | none => false

/-- `String.prototype.split` with a single-character separator, on the
character list of the string.  `split` keeps empty segments, and a string
with no separator yields the one-element list holding the whole input. -/
def splitChar (sep : Char) : List Char → List (List Char)
  | [] => [[]]
  | c :: cs =>
    if c = sep then [] :: splitChar sep cs
    else
      match splitChar sep cs with
      | [] => [[c]]
      | h :: t => (c :: h) :: t

/-- Embeds `stripBase64Prefix` from `src/services/geminiService.ts`:
`base64Str.split(',')[1] || base64Str`.  Index `[1]` of the split is the
segment between the first and the second comma; when it is absent
(`undefined`) or the empty string (both falsy in JS), the `||` falls back to
the original string. -/
def stripBase64Prefix (base64Str : String) : String :=
  match (splitChar ',' base64Str.data)[1]? with
  | some seg => if seg.isEmpty then base64Str else String.mk seg
  | none => base64Str

theorem splitChar_cons (sep c : Char) (cs : List Char) :
    splitChar sep (c :: cs) =
      if c = sep then [] :: splitChar sep cs
      else
        match splitChar sep cs with
        | [] => [[c]]
        | h :: t => (c :: h) :: t := rfl

theorem splitChar_ne_nil (sep : Char) (l : List Char) : splitChar sep l ≠ [] := by
  cases l with
  | nil => simp [splitChar]
  | cons c cs =>
    rw [splitChar_cons]
    by_cases h : c = sep
    · simp [h]
    · simp only [h, if_false]
      cases splitChar sep cs <;> simp

/-- The predicate "is not a comma", as used to describe the segments that
`split` on a comma produces. -/
def notComma (c : Char) : Bool := c ≠ ','

theorem splitChar_head (l : List Char) :
    (splitChar ',' l).head? = some (l.takeWhile notComma) := by
  induction l with
  | nil => simp [splitChar]
  | cons c cs ih =>
    rw [splitChar_cons]
    by_cases h : c = ','
    · simp [h, List.takeWhile_cons, notComma]
    · simp only [h, if_false]
      rcases hr : splitChar ',' cs with _ | ⟨hd, tl⟩
      · exact absurd hr (splitChar_ne_nil ',' cs)
      · rw [hr] at ih
        have hhd : hd = cs.takeWhile notComma := by simpa using ih
        subst hhd
        simp [List.takeWhile_cons, notComma, h]

theorem splitChar_of_not_mem (sep : Char) (l : List Char) (h : sep ∉ l) :
    splitChar sep l = [l] := by
  induction l with
  | nil => simp [splitChar]
  | cons c cs ih =>
    have hc : c ≠ sep := fun he => h (he ▸ List.mem_cons_self c cs)
    have hcs : sep ∉ cs := fun hm => h (List.mem_cons_of_mem c hm)
    rw [splitChar_cons, ih hcs]
    simp [hc]

theorem splitChar_append_sep (sep : Char) (l₁ l₂ : List Char) (h : sep ∉ l₁) :
    splitChar sep (l₁ ++ sep :: l₂) = l₁ :: splitChar sep l₂ := by
  induction l₁ with
  | nil => simp [splitChar]
  | cons c cs ih =>
    have hc : c ≠ sep := fun he => h (he ▸ List.mem_cons_self c cs)
    have hcs : sep ∉ cs := fun hm => h (List.mem_cons_of_mem c hm)
    rw [List.cons_append, splitChar_cons, ih hcs]
    simp [hc]

theorem dropWhile_comma_decomp (l : List Char) (h : (',' : Char) ∈ l) :
    l.dropWhile notComma = ',' :: (l.dropWhile notComma).tail := by
  induction l with
  | nil => cases h
  | cons c cs ih =>
    by_cases hc : c = ','
    · subst hc; simp [List.dropWhile_cons, notComma]
    · have hm : (',' : Char) ∈ cs := by
        rcases List.mem_cons.mp h with he | hm
        · exact absurd he.symm hc
        · exact hm
      rw [List.dropWhile_cons]
      have hb : notComma c = true := by simp [notComma, hc]
      rw [hb, if_pos rfl]
      exact ih hm

theorem comma_not_mem_takeWhile (l : List Char) :
    (',' : Char) ∉ l.takeWhile notComma := by
  intro hmem
  have := List.mem_takeWhile_imp hmem
  simp [notComma] at this

theorem string_mk_data (s : String) : String.mk s.data = s := by
  cases s
  rfl

/-- C2 (corrected): `stripBase64Prefix` returns the input verbatim when it
holds no comma; when a comma is present it returns the segment strictly
between the first comma and the following comma (or the end of the string),
except that when that segment is empty the whole original string is
returned instead — `split(',')[1]` is not "everything after the first
comma", and the `|| base64Str` fallback also fires on an empty segment. -/
theorem c2_amended (s : String) :
    ((',' : Char) ∉ s.data → stripBase64Prefix s = s) ∧
    ((',' : Char) ∈ s.data →
      stripBase64Prefix s =
        (if ((s.data.dropWhile notComma).tail.takeWhile notComma).isEmpty then s
         else String.mk ((s.data.dropWhile notComma).tail.takeWhile notComma))) := by
  constructor
  · intro h
    unfold stripBase64Prefix
    rw [splitChar_of_not_mem ',' s.data h]
    rfl
  · intro h
    have hdecomp : s.data =
        s.data.takeWhile notComma ++ ',' :: (s.data.dropWhile notComma).tail := by
      have hd := dropWhile_comma_decomp s.data h
      conv_lhs => rw [← List.takeWhile_append_dropWhile (p := notComma) (l := s.data), hd]
    have h1 : (',' : Char) ∉ s.data.takeWhile notComma := comma_not_mem_takeWhile s.data
    unfold stripBase64Prefix
    conv_lhs => rw [hdecomp]
    rw [splitChar_append_sep ',' _ _ h1]
    rcases hr : splitChar ',' ((s.data.dropWhile notComma).tail) with _ | ⟨hd, tl⟩
    · exact absurd hr (splitChar_ne_nil ',' _)
    · have hhd : hd = ((s.data.dropWhile notComma).tail).takeWhile notComma := by
        have := splitChar_head ((s.data.dropWhile notComma).tail)
        rw [hr] at this
        simpa using this
      subst hhd
      simp

/-- C2 witness: on `"abc"` (no comma) the input comes back verbatim; on
`"x,yy,z"` the segment between the first two commas is returned. -/
theorem c2_witness :
    stripBase64Prefix "abc" = "abc" ∧ stripBase64Prefix "x,yy,z" = "yy" := by
  refine ⟨(c2_amended "abc").1 (by decide), ?_⟩
  have h := (c2_amended "x,yy,z").2 (by decide)
  exact h.trans (by decide)

/-- C2 counterexample: the claim says the entire substring after the first
comma is returned, but on `"a,b,c"` the code returns `"b"`, not `"b,c"`. -/
theorem c2_counterexample :
    stripBase64Prefix "a,b,c" = "b" ∧ stripBase64Prefix "a,b,c" ≠ "b,c" := by
  decide

/-- C8 counterexample: for the empty base64 payload, prefixing and stripping
does not give the payload back — the falsy-fallback returns the whole
data-URL instead of the empty string. -/
theorem c8_counterexample :
    stripBase64Prefix ("data:image/png;base64," ++ "") = "data:image/png;base64," ∧
    stripBase64Prefix ("data:image/png;base64," ++ "") ≠ "" := by
  decide

/-- C8 (corrected): for every nonempty, comma-free payload, prefixing with
the PNG data-URL scheme and then stripping yields the payload back, and
re-prefixing reproduces the original data-URL bit-for-bit. -/
theorem c8_amended (p : String) (hne : p ≠ "") (hc : (',' : Char) ∉ p.data) :
    stripBase64Prefix ("data:image/png;base64," ++ p) = p ∧
    "data:image/png;base64," ++ stripBase64Prefix ("data:image/png;base64," ++ p) =
      "data:image/png;base64," ++ p := by
  have hnil : p.data ≠ [] := by
    intro hn
    exact hne (by rw [← string_mk_data p, hn])
  have hdata : ("data:image/png;base64," ++ p).data =
      "data:image/png;base64".data ++ ',' :: p.data := by
    rw [String.data_append]
    have h1 : ("data:image/png;base64," : String).data =
        "data:image/png;base64".data ++ [','] := by decide
    rw [h1]
    simp
  have hemp : p.data.isEmpty = false := by
    rcases hp : p.data with _ | ⟨a, as⟩
    · exact absurd hp hnil
    · rfl
  have hmain : stripBase64Prefix ("data:image/png;base64," ++ p) = p := by
    unfold stripBase64Prefix
    rw [hdata, splitChar_append_sep ',' _ _ (by decide),
      splitChar_of_not_mem ',' p.data hc]
    simp [hemp, string_mk_data]
  exact ⟨hmain, by rw [hmain]⟩

/-- C8 witness: round trip at the concrete payload `"AAAA"`. -/
theorem c8_witness :
    stripBase64Prefix ("data:image/png;base64," ++ "AAAA") = "AAAA" :=
  (c8_amended "AAAA" (by decide) (by decide)).1

/-! ### Response model of the generation API

Mirrors the fields of the `@google/genai` response that
`generateChibiStyle` reads: `response.candidates?.[0]`,
`candidate.finishReason`, `candidate.content?.parts`, `part.inlineData`
(with `mimeType` and `data`), `part.text`.  Absent (`undefined`) fields are
`none`. -/

structure InlineData where
  mimeType : String
  data : String
deriving DecidableEq

structure ContentPart where
  inlineData : Option InlineData
  text : Option String
deriving DecidableEq

structure Content where
  parts : Option (List ContentPart)
deriving DecidableEq

structure Candidate where
  content : Option Content
  finishReason : Option String
deriving DecidableEq

structure GenResponse where
  candidates : Option (List Candidate)
deriving DecidableEq

/-- The loop condition `part.inlineData && part.inlineData.data`: an inline
data object is present and its `data` string is truthy (nonempty). -/
def isImagePart (p : ContentPart) : Bool :=
  match p.inlineData with
  | some idata => idata.data ≠ ""
  | none => false

/-- The `find` predicate `p => p.text`: a truthy (nonempty) text field. -/
def isTextPart (p : ContentPart) : Bool :=
  match p.text with
  | some t => t ≠ ""
  | none => false

/-- The `for (const part of contentParts)` loop of `generateChibiStyle`:
return the `data` of the first part whose inline data is present and
nonempty. -/
def scanForImage : List ContentPart → Option String
  | [] => none
  | part :: rest =>
    match part.inlineData with
    | some idata => if idata.data = "" then scanForImage rest else some idata.data
    | none => scanForImage rest

/-- The backquote character, removed by `msg.replace(/BACKQUOTE/g, '')`. -/
def backquote : Char := Char.ofNat 96

/-- `msg.replace` deleting every backquote from the string. -/
def removeBackquotes (s : String) : String :=
  String.mk (s.data.filter (fun c => c ≠ backquote))

/-- JS `String.prototype.trim`: drop whitespace from both ends. -/
def jsTrim (s : String) : String :=
  String.mk (((s.data.dropWhile Char.isWhitespace).reverse.dropWhile
    Char.isWhitespace).reverse)

/-- Error message texts thrown by `generateChibiStyle`
(`src/services/geminiService.ts`). -/
def emptyRespMsg : String := "API 响应为空，未返回任何候选结果。"

def safetyMsg : String := "由于安全策略，模型拒绝生成该图片。请尝试更换图片。"

def filteredMsg : String := "模型未生成图片。这通常是因为输入图片触发了安全过滤或过于复杂。"

def noImageMsg : String := "未在响应中找到图片数据，也未找到错误说明。"

def unavailableMsg : String := "图片生成服务暂时不可用，请稍后再试。"

/-- The response-handling part of `generateChibiStyle`'s try block, from
`const candidate = response.candidates?.[0]` to the final `throw`.  An
`Except.error` carries the message of the thrown `Error`. -/
def handleResponse (response : GenResponse) : Except String String :=
  match response.candidates.bind (fun cs => cs[0]?) with
  | none => Except.error emptyRespMsg
  | some candidate =>
    if candidate.finishReason = some "SAFETY" then Except.error safetyMsg
    else
      match candidate.content.bind Content.parts with
      | some contentParts =>
        match scanForImage contentParts with
        | some data => Except.ok ("data:image/png;base64," ++ data)
        | none =>
          match (contentParts.find? isTextPart).bind ContentPart.text with
          | some t =>
            let msg := jsTrim t
            let msg := if jsTrim (removeBackquotes msg) = "" then filteredMsg else msg
            Except.error ("生成失败: " ++ msg)
          | none => Except.error noImageMsg
      | none => Except.error noImageMsg

/-- The catch clause of `generateChibiStyle`: messages containing a domain
tag are rethrown as they are; otherwise a new error is thrown whose message
is `error.message || fallback` (the fallback fires only when the original
message is falsy, i.e. empty). -/
def normalizeError (errMsg : String) : String :=
  if errMsg ≠ "" ∧ ("生成失败".data <:+: errMsg.data ∨ "安全策略".data <:+: errMsg.data)
  then errMsg
  else if errMsg = "" then unavailableMsg else errMsg

/-- A request part pushed onto the `parts` array: either an `inlineData`
record carrying a mime type and base64 data, or a `text` record. -/
inductive RequestPart
  | inlineData (mimeType : String) (data : String)
  | text (t : String)
deriving DecidableEq

/-- The request construction of `generateChibiStyle`: style reference first
(when the `styleImage` argument is truthy), then the content image, then
the text prompt last; image parts carry prefix-stripped base64 data. -/
def buildParts (contentImage : String) (styleImage : Option String)
    (customPrompt : String) : List RequestPart :=
  (match styleImage with
   | some s => if s = "" then [] else [RequestPart.inlineData "image/png" (stripBase64Prefix s)]
   | none => []) ++
  [RequestPart.inlineData "image/png" (stripBase64Prefix contentImage),
   RequestPart.text customPrompt]

/-- `generateChibiStyle` with the external call made explicit: the outcome
of `ai.models.generateContent` is passed as `apiResult` (`Except.error`
for a thrown transport error carrying a message).  The result pairs the
request part list sent to the model with the returned data-URL or the
message of the error thrown to the caller. -/
def generateChibiStyle (contentImage : String) (styleImage : Option String)
    (customPrompt : String) (apiResult : Except String GenResponse) :
    List RequestPart × Except String String :=
  let parts := buildParts contentImage styleImage customPrompt
  let tryResult : Except String String :=
    match apiResult with
    | Except.error transportMsg => Except.error transportMsg
    | Except.ok response => handleResponse response
  (parts,
    match tryResult with
    | Except.ok url => Except.ok url
    | Except.error m => Except.error (normalizeError m))

theorem scanForImage_eq_find (ps : List ContentPart) :
    scanForImage ps =
      (ps.find? isImagePart).bind (fun p => p.inlineData.map InlineData.data) := by
  induction ps with
  | nil => simp [scanForImage]
  | cons p rest ih =>
    rcases hp : p.inlineData with _ | ⟨idata⟩
    · have hfalse : isImagePart p = false := by simp [isImagePart, hp]
      simp [scanForImage, hp, List.find?_cons, hfalse, ih]
    · by_cases hd : idata.data = ""
      · have hfalse : isImagePart p = false := by simp [isImagePart, hp, hd]
        simp [scanForImage, hp, hd, List.find?_cons, hfalse, ih]
      · have htrue : isImagePart p = true := by simp [isImagePart, hp, hd]
        simp [scanForImage, hp, hd, List.find?_cons, htrue]

theorem normalizeError_eq (m : String) :
    normalizeError m = if m = "" then unavailableMsg else m := by
  unfold normalizeError
  by_cases h1 : m ≠ "" ∧ ("生成失败".data <:+: m.data ∨ "安全策略".data <:+: m.data)
  · rw [if_pos h1, if_neg h1.1]
  · rw [if_neg h1]

theorem failPrefix_ne_empty (x : String) : "生成失败: " ++ x ≠ "" := by
  intro hq
  have hd := congrArg String.data hq
  rw [String.data_append] at hd
  simp [List.append_eq_nil] at hd

theorem normalizeError_failPrefix (x : String) :
    normalizeError ("生成失败: " ++ x) = "生成失败: " ++ x := by
  rw [normalizeError_eq, if_neg (failPrefix_ne_empty x)]

/-- C5 (confirmed): a first candidate with finish reason `SAFETY` and no
content makes `generateChibiStyle` fail with the safety-specific refusal
message, which differs from the no-image-data message and from the
empty-response message. -/
theorem c5_safety_refusal (response : GenResponse) (candidate : Candidate)
    (rest : List Candidate)
    (h1 : response.candidates = some (candidate :: rest))
    (_h2 : candidate.content = none)
    (h3 : candidate.finishReason = some "SAFETY")
    (ci : String) (si : Option String) (pr : String) :
    (generateChibiStyle ci si pr (Except.ok response)).2 = Except.error safetyMsg ∧
    safetyMsg ≠ noImageMsg ∧ safetyMsg ≠ emptyRespMsg := by
  refine ⟨?_, by decide, by decide⟩
  have hresp : handleResponse response = Except.error safetyMsg := by
    unfold handleResponse
    rw [h1]
    simp [h3]
  have hne : ¬ (safetyMsg = "") := by decide
  simp [generateChibiStyle, hresp, normalizeError_eq, hne]

/-- C5 witness: concrete response with one SAFETY candidate and no
content. -/
theorem c5_witness :
    (generateChibiStyle "c" none "p" (Except.ok
      ⟨some [{ content := none, finishReason := some "SAFETY" }]⟩)).2 =
      Except.error safetyMsg :=
  (c5_safety_refusal ⟨some [{ content := none, finishReason := some "SAFETY" }]⟩
    { content := none, finishReason := some "SAFETY" } [] rfl rfl rfl "c" none "p").1

/-- A response whose single candidate carries an inline-image part but a
SAFETY finish reason; used to refute C1 as stated. -/
def c1CexResponse : GenResponse :=
  ⟨some [{ content := some ⟨some [{ inlineData := some ⟨"image/png", "AAAA"⟩,
                                    text := none }]⟩,
           finishReason := some "SAFETY" }]⟩

/-- C1 counterexample: the response contains a candidate whose parts hold an
inline-image part, yet `generateChibiStyle` does not return the data-URL —
the SAFETY finish reason preempts the image scan. -/
theorem c1_counterexample :
    (generateChibiStyle "c" none "p" (Except.ok c1CexResponse)).2 =
      Except.error safetyMsg ∧
    (generateChibiStyle "c" none "p" (Except.ok c1CexResponse)).2 ≠
      Except.ok ("data:image/png;base64," ++ "AAAA") := by
  have hresp : handleResponse c1CexResponse = Except.error safetyMsg := rfl
  have hne : ¬ (safetyMsg = "") := by decide
  have hmain : (generateChibiStyle "c" none "p" (Except.ok c1CexResponse)).2 =
      Except.error safetyMsg := by
    simp [generateChibiStyle, hresp, normalizeError_eq, hne]
  exact ⟨hmain, by rw [hmain]; exact fun hcontra => Except.noConfusion hcontra⟩

/-- C1 (corrected): when the FIRST candidate exists, its finish reason is
not SAFETY, and its content-part list holds an inline-image part, the
adapter returns the data-URL built from the first inline-image part in part
order; a preceding text part is never surfaced. -/
theorem c1_amended (response : GenResponse) (candidate : Candidate)
    (rest : List Candidate) (content : Content) (ps : List ContentPart)
    (part : ContentPart) (idata : InlineData)
    (h1 : response.candidates = some (candidate :: rest))
    (h2 : candidate.finishReason ≠ some "SAFETY")
    (h3 : candidate.content = some content)
    (h4 : content.parts = some ps)
    (h5 : ps.find? isImagePart = some part)
    (h6 : part.inlineData = some idata)
    (ci : String) (si : Option String) (pr : String) :
    (generateChibiStyle ci si pr (Except.ok response)).2 =
      Except.ok ("data:image/png;base64," ++ idata.data) := by
  have hscan : scanForImage ps = some idata.data := by
    rw [scanForImage_eq_find, h5]
    simp [h6]
  have hresp : handleResponse response =
      Except.ok ("data:image/png;base64," ++ idata.data) := by
    unfold handleResponse
    rw [h1]
    simp [h2, h3, h4, hscan]
  simp [generateChibiStyle, hresp]

/-- Content-part list with a text part, then two inline-image parts. -/
def c1WitnessParts : List ContentPart :=
  [{ inlineData := none, text := some "I will draw it" },
   { inlineData := some ⟨"image/png", "IMGDATA"⟩, text := none },
   { inlineData := some ⟨"image/png", "SECOND"⟩, text := none }]

/-- A response whose first candidate holds `c1WitnessParts` with a
non-SAFETY finish reason. -/
def c1WitnessResponse : GenResponse :=
  ⟨some [⟨some ⟨some c1WitnessParts⟩, some "STOP"⟩]⟩

/-- C1 witness: a text part precedes the image part and a second image part
follows it; the first image part's data is returned. -/
theorem c1_witness :
    (generateChibiStyle "c" none "p" (Except.ok c1WitnessResponse)).2 =
      Except.ok ("data:image/png;base64," ++ "IMGDATA") := by
  exact c1_amended c1WitnessResponse ⟨some ⟨some c1WitnessParts⟩, some "STOP"⟩ []
    ⟨some c1WitnessParts⟩ c1WitnessParts
    { inlineData := some ⟨"image/png", "IMGDATA"⟩, text := none }
    ⟨"image/png", "IMGDATA"⟩ rfl (by decide) rfl rfl (by decide) rfl "c" none "p"

/-- C3 counterexample: a transport error with an untagged, nonempty message
reaches the caller with its own message, not the generic
service-unavailable fallback the claim requires. -/
theorem c3_counterexample :
    (generateChibiStyle "c" none "p" (Except.error "Network error")).2 =
      Except.error "Network error" ∧
    "Network error" ≠ unavailableMsg ∧
    ¬ ("生成失败".data <:+: ("Network error" : String).data) ∧
    ¬ ("安全策略".data <:+: ("Network error" : String).data) := by
  refine ⟨?_, by decide, by decide, by decide⟩
  have h : normalizeError "Network error" = "Network error" := by
    rw [normalizeError_eq, if_neg (by decide)]
  simp [generateChibiStyle, h]

/-- C3 (corrected): tagged messages pass through unchanged; every other
exception also keeps its own message when that message is nonempty, and
the generic service-unavailable fallback is used only when the message is
empty. -/
theorem c3_amended (m : String) (ci : String) (si : Option String) (pr : String) :
    (("生成失败".data <:+: m.data ∨ "安全策略".data <:+: m.data) →
      (generateChibiStyle ci si pr (Except.error m)).2 = Except.error m) ∧
    (m ≠ "" →
      (generateChibiStyle ci si pr (Except.error m)).2 = Except.error m) ∧
    (m = "" →
      (generateChibiStyle ci si pr (Except.error m)).2 =
        Except.error unavailableMsg) := by
  have hcase : ∀ hne : m ≠ "",
      (generateChibiStyle ci si pr (Except.error m)).2 = Except.error m := by
    intro hne
    simp [generateChibiStyle, normalizeError_eq, hne]
  refine ⟨?_, hcase, ?_⟩
  · intro htag
    have hne : m ≠ "" := by
      intro hq
      subst hq
      rcases htag with h | h <;>
      · rcases h with ⟨s2, t2, hst⟩
        simp [List.append_eq_nil] at hst
    exact hcase hne
  · intro hq
    subst hq
    simp [generateChibiStyle, normalizeError_eq]

/-- C3 witness: an untagged nonempty message is kept; an empty message is
replaced by the service-unavailable fallback. -/
theorem c3_witness :
    (generateChibiStyle "c" none "p" (Except.error "boom")).2 =
      Except.error "boom" ∧
    (generateChibiStyle "c" none "p" (Except.error "")).2 =
      Except.error unavailableMsg :=
  ⟨(c3_amended "boom" "c" none "p").2.1 (by decide),
   (c3_amended "" "c" none "p").2.2 rfl⟩

/-- A response whose single candidate has no image part and one text part
holding only the punctuation `"."`; used to refute C4 as stated. -/
def c4CexResponse : GenResponse :=
  ⟨some [{ content := some ⟨some [{ inlineData := none, text := some "." }]⟩,
           finishReason := none }]⟩

/-- C4 counterexample: a text consisting only of punctuation is surfaced
verbatim inside the generation-failed message — the generic
no-image-likely-filtered text does not appear, because the cleanup only
removes backticks, not punctuation. -/
theorem c4_counterexample :
    (generateChibiStyle "c" none "p" (Except.ok c4CexResponse)).2 =
      Except.error ("生成失败: " ++ ".") ∧
    ¬ (filteredMsg.data <:+: ("生成失败: " ++ ".").data) := by
  constructor
  · have hresp : handleResponse c4CexResponse =
        Except.error ("生成失败: " ++ ".") := rfl
    have hnorm : normalizeError "生成失败: ." = "生成失败: ." := by
      simpa using normalizeError_failPrefix "."
    simp [generateChibiStyle, hresp, hnorm]
  · decide

/-- C4 (corrected): with no image part and a first nonempty-text part
carrying text `t`: if the trimmed text with every backtick removed trims to
the empty string, the adapter fails with the generation-failed message
holding the generic no-image-likely-filtered text; otherwise it fails with
the generation-failed message holding the trimmed text.  (The claim's
"empty or only punctuation" is wrong on both ends: empty texts are skipped
by the truthiness scan, and only backticks — not punctuation — are
removed before the emptiness test; also the surfaced text is trimmed, and
even the generic text is wrapped in the generation-failed message.) -/
theorem c4_amended (response : GenResponse) (candidate : Candidate)
    (rest : List Candidate) (content : Content) (ps : List ContentPart)
    (part : ContentPart) (t : String)
    (h1 : response.candidates = some (candidate :: rest))
    (h2 : candidate.finishReason ≠ some "SAFETY")
    (h3 : candidate.content = some content)
    (h4 : content.parts = some ps)
    (h5 : ps.find? isImagePart = none)
    (h6 : ps.find? isTextPart = some part)
    (h7 : part.text = some t)
    (ci : String) (si : Option String) (pr : String) :
    (jsTrim (removeBackquotes (jsTrim t)) = "" →
      (generateChibiStyle ci si pr (Except.ok response)).2 =
        Except.error ("生成失败: " ++ filteredMsg)) ∧
    (jsTrim (removeBackquotes (jsTrim t)) ≠ "" →
      (generateChibiStyle ci si pr (Except.ok response)).2 =
        Except.error ("生成失败: " ++ jsTrim t)) := by
  have hscan : scanForImage ps = none := by
    rw [scanForImage_eq_find, h5]
    rfl
  have hfind : (ps.find? isTextPart).bind ContentPart.text = some t := by
    rw [h6]
    simpa using h7
  have hresp : handleResponse response =
      Except.error ("生成失败: " ++
        (if jsTrim (removeBackquotes (jsTrim t)) = "" then filteredMsg
         else jsTrim t)) := by
    unfold handleResponse
    rw [h1]
    simp [h2, h3, h4, hscan, hfind]
  constructor <;> intro hcond <;>
    simp [generateChibiStyle, hresp, hcond, normalizeError_failPrefix]

/-- Content-part list holding the single text part `"  hi  "`. -/
def c4WitnessPartsA : List ContentPart :=
  [{ inlineData := none, text := some "  hi  " }]

/-- A response whose first candidate holds `c4WitnessPartsA`. -/
def c4WitnessResponseA : GenResponse :=
  ⟨some [⟨some ⟨some c4WitnessPartsA⟩, none⟩]⟩

/-- Content-part list holding one text part made of two backticks. -/
def c4WitnessPartsB : List ContentPart :=
  [{ inlineData := none, text := some (String.mk [backquote, backquote]) }]

/-- A response whose first candidate holds `c4WitnessPartsB`. -/
def c4WitnessResponseB : GenResponse :=
  ⟨some [⟨some ⟨some c4WitnessPartsB⟩, none⟩]⟩

/-- C4 witness: text `"  hi  "` is surfaced trimmed; a text of two
backticks falls back to the generic no-image-likely-filtered text. -/
theorem c4_witness :
    (generateChibiStyle "c" none "p" (Except.ok c4WitnessResponseA)).2 =
      Except.error ("生成失败: " ++ "hi") ∧
    (generateChibiStyle "c" none "p" (Except.ok c4WitnessResponseB)).2 =
      Except.error ("生成失败: " ++ filteredMsg) := by
  constructor
  · have h := (c4_amended c4WitnessResponseA ⟨some ⟨some c4WitnessPartsA⟩, none⟩ []
      ⟨some c4WitnessPartsA⟩ c4WitnessPartsA
      { inlineData := none, text := some "  hi  " } "  hi  "
      rfl (by decide) rfl rfl (by decide) (by decide) rfl "c" none "p").2
    have hj : jsTrim "  hi  " = "hi" := by decide
    exact (h (by decide)).trans (by rw [hj])
  · have h := (c4_amended c4WitnessResponseB ⟨some ⟨some c4WitnessPartsB⟩, none⟩ []
      ⟨some c4WitnessPartsB⟩ c4WitnessPartsB
      { inlineData := none, text := some (String.mk [backquote, backquote]) }
      (String.mk [backquote, backquote])
      rfl (by decide) rfl rfl (by decide) (by decide) rfl "c" none "p").1
    exact h (by decide)

/-- C6 (confirmed): the request part list is style image first (when a
style image is provided), then the content image, then the text prompt
last; with no style image it is exactly content image then prompt. -/
theorem c6_part_order (c pr : String) (ar : Except String GenResponse) :
    (∀ s : String, s ≠ "" →
      (generateChibiStyle c (some s) pr ar).1 =
        [RequestPart.inlineData "image/png" (stripBase64Prefix s),
         RequestPart.inlineData "image/png" (stripBase64Prefix c),
         RequestPart.text pr]) ∧
    (generateChibiStyle c none pr ar).1 =
      [RequestPart.inlineData "image/png" (stripBase64Prefix c),
       RequestPart.text pr] := by
  constructor
  · intro s hs
    simp [generateChibiStyle, buildParts, hs]
  · simp [generateChibiStyle, buildParts]

/-- C6 witness: concrete data-URLs, with and without a style image. -/
theorem c6_witness :
    (generateChibiStyle "data:image/png;base64,CCC" none "PROMPT"
      (Except.error "")).1 =
      [RequestPart.inlineData "image/png" "CCC", RequestPart.text "PROMPT"] ∧
    (generateChibiStyle "data:image/png;base64,CCC"
      (some "data:image/png;base64,SSS") "PROMPT" (Except.error "")).1 =
      [RequestPart.inlineData "image/png" "SSS",
       RequestPart.inlineData "image/png" "CCC",
       RequestPart.text "PROMPT"] := by
  constructor
  · exact (c6_part_order "data:image/png;base64,CCC" "PROMPT"
      (Except.error "")).2.trans (by decide)
  · exact ((c6_part_order "data:image/png;base64,CCC" "PROMPT"
      (Except.error "")).1 "data:image/png;base64,SSS" (by decide)).trans (by decide)

end GeminiService

namespace App

/-!
Model of `src/App.tsx` (the variant whose prompt textarea is
`readOnly={true}`) together with `AppStatus` from `types.ts`.  React state
cells become fields of `AppState`; each handler becomes a pure function
from the pre-state (plus the handler's inputs and the outcome of its one
asynchronous operation) to the post-state.
-/

/-- The `AppStatus` enum of `types.ts`. -/
inductive AppStatus
  | IDLE
  | UPLOADING
  | GENERATING
  | SUCCESS
  | ERROR
deriving DecidableEq

/-- `PROMPT_WITH_STYLE`: the fixed prompt used when both a style image and
a content image are present. -/
def PROMPT_WITH_STYLE : String := "任务：图像生成。

输入包含两张图片：
1. 第一张图是【风格参考图】(Style Reference)
2. 第二张图是【人物原型图】(Character Content)

请生成一张新的Q版人物贴纸，必须严格遵守以下指令：

1. **内容（发型与服装）必须来自第二张图**：
   - 仔细观察第二张图（人物原型图）的**发型**（刘海、长短、颜色）和**服装**（款式、颜色）。
   - **生成的图片必须完全复制第二张图的发型和衣服**。
   - **严禁**使用第一张图的发型或衣服。第一张图仅供参考画风，绝不可参考其内容。

2. **风格必须来自第一张图**：
   - 学习第一张图的绘画风格（线条粗细、Q版头身比例、上色质感）。
   - 只模仿画风，不要模仿内容。

3. **固定特征**：
   - 人物必须佩戴**纯黑色墨镜**。
   - 墨镜镜片必须是纯黑色块，**绝对不可有反光**，不可有高光，不可有倒影。
   - 表情自信微笑。
   - 白色背景。

**总结：用图1的画风，画图2的人（保留图2的发型和衣服）。**"

/-- `PROMPT_SINGLE`: the fixed prompt used when only a content image is
present. -/
def PROMPT_SINGLE : String := "任务：图像生成。

基于提供的人物图片，创作一个Q版风格贴纸。

执行步骤：
1. **分析人物**：识别图片中人物的发型、发色和服装特征。
2. **重绘**：在保持上述人物特征（**特别是发型**）的前提下，将其重绘为Q版风格。
3. **风格要求**：极简矢量插画，粗线条，平涂上色。
4. **配饰要求**：
   - 必须佩戴**纯黑色墨镜**。
   - 墨镜必须完全无反光、无高光、无渐变，呈现纯黑平面风格。
5. **输出规格**：白色背景，自信微笑表情。"

/-- Error/validation message texts of `App.tsx`. -/
def typeErrMsg : String := "请上传有效的图片文件。"

def sizeErrMsg : String := "文件过大，请使用 5MB 以下的图片。"

def readErrMsg : String := "读取文件失败。"

def needContentMsg : String := "请至少上传人物原图。"

def genProblemMsg : String := "生成过程中出现了问题。"

/-- The React state cells of the `App` component, in declaration order. -/
structure AppState where
  status : AppStatus
  contentImage : Option String
  styleImage : Option String
  resultImage : Option String
  errorMsg : Option String
  prompt : String
deriving DecidableEq

/-- The initial state: `IDLE`, no images, no result, no error, single-image
prompt. -/
def initState : AppState :=
  { status := AppStatus.IDLE, contentImage := none, styleImage := none,
    resultImage := none, errorMsg := none, prompt := PROMPT_SINGLE }

/-- The `'content' | 'style'` discriminator of file intake and clear. -/
inductive FileKind
  | content
  | style
deriving DecidableEq

/-- The fields of the selected `File` that `handleFileChange` reads. -/
structure FileInfo where
  type : String
  size : Nat
deriving DecidableEq

/-- JS `String.prototype.startsWith`. -/
def jsStartsWith (s pre : String) : Bool := pre.data.isPrefixOf s.data

/-- Outcome of `handleFileChange`: the new state, and whether a
`FileReader` read was started. -/
structure FileChangeResult where
  state : AppState
  readStarted : Bool
deriving DecidableEq

/-- `handleFileChange` up to (and excluding) the asynchronous
`reader.onloadend`/`onerror` callbacks: validate MIME type prefix and the
5 MiB size ceiling; on failure set the error message and return without
touching the stored images and without starting a read. -/
def handleFileChange (st : AppState) (kind : FileKind) (file : Option FileInfo) :
    FileChangeResult :=
  match file with
  | none => { state := st, readStarted := false }
  | some f =>
    if ¬ jsStartsWith f.type "image/" then
      { state := { st with errorMsg := some typeErrMsg }, readStarted := false }
    else if f.size > 5 * 1024 * 1024 then
      { state := { st with errorMsg := some sizeErrMsg }, readStarted := false }
    else
      let st1 := { st with errorMsg := none }
      let st2 :=
        match kind with
        | FileKind.content => { st1 with resultImage := none }
        | FileKind.style => st1
      { state := st2, readStarted := true }

/-- The `reader.onloadend` / `reader.onerror` callbacks: on success store
the data-URL (and for a style image switch a still-default prompt to the
with-style variant); on failure set the read-error message. -/
def handleReadComplete (st : AppState) (kind : FileKind) (ok : Bool)
    (dataUrl : String) : AppState :=
  if ok then
    match kind with
    | FileKind.content => { st with contentImage := some dataUrl }
    | FileKind.style =>
      { st with
          styleImage := some dataUrl,
          prompt := if st.prompt = PROMPT_SINGLE then PROMPT_WITH_STYLE else st.prompt }
  else { st with errorMsg := some readErrMsg }

/-- The arguments of the one `generateChibiStyle` call that `handleGenerate`
makes. -/
structure GenerateCall where
  contentImage : String
  styleImage : Option String
  prompt : String
deriving DecidableEq

/-- `handleGenerate` of the read-only-prompt variant, from guard to settled
promise: with no truthy content image, set the validation error and do not
call the adapter; otherwise recompute the prompt from style-image presence
(ignoring the prompt state), set `GENERATING`, call the adapter, and settle
into `SUCCESS` with the result image or `ERROR` with the message (or the
generic problem message when the thrown message is falsy).  The second
component records the adapter call made, if any. -/
def handleGenerate (st : AppState) (adapterResult : Except String String) :
    AppState × Option GenerateCall :=
  if GeminiService.jsTruthy st.contentImage = false then
    ({ st with errorMsg := some needContentMsg }, none)
  else
    let currentPrompt :=
      if GeminiService.jsTruthy st.styleImage then PROMPT_WITH_STYLE else PROMPT_SINGLE
    let stGen :=
      { st with
          status := AppStatus.GENERATING,
          errorMsg := none,
          prompt := currentPrompt }
    let call : GenerateCall :=
      { contentImage := st.contentImage.getD "",
        styleImage := st.styleImage,
        prompt := currentPrompt }
    match adapterResult with
    | Except.ok img =>
      ({ stGen with status := AppStatus.SUCCESS, resultImage := some img }, some call)
    | Except.error m =>
      ({ stGen with
           status := AppStatus.ERROR,
           errorMsg := some (if m = "" then genProblemMsg else m) }, some call)

/-- `handleDownload`: a DOM-only action; the React state is untouched. -/
def handleDownload (st : AppState) : AppState := st

/-- `clearImage`: clear the image (content also clears the result; style
switches a with-style prompt back to the single variant) and set `IDLE`. -/
def clearImage (st : AppState) (kind : FileKind) : AppState :=
  match kind with
  | FileKind.content =>
    { st with contentImage := none, resultImage := none, status := AppStatus.IDLE }
  | FileKind.style =>
    { st with
        styleImage := none,
        prompt := if st.prompt = PROMPT_WITH_STYLE then PROMPT_SINGLE else st.prompt,
        status := AppStatus.IDLE }

/-- One user-visible operation of the UI controller, with the outcome of
its asynchronous part made explicit. -/
inductive UIAction
  | fileSelect (kind : FileKind) (file : Option FileInfo)
  | readComplete (kind : FileKind) (ok : Bool) (dataUrl : String)
  | generate (adapterResult : Except String String)
  | clear (kind : FileKind)
  | download

/-- The transition function of the UI controller. -/
def step (st : AppState) : UIAction → AppState
  | UIAction.fileSelect kind file => (handleFileChange st kind file).state
  | UIAction.readComplete kind ok dataUrl => handleReadComplete st kind ok dataUrl
  | UIAction.generate adapterResult => (handleGenerate st adapterResult).1
  | UIAction.clear kind => clearImage st kind
  | UIAction.download => handleDownload st

/-- C7 (confirmed): in the read-only-prompt variant, whenever a truthy
content image is present, the prompt passed to the adapter is the
with-style variant exactly when a style image is present and the single
variant when none is, whatever the prompt state held before. -/
theorem c7_prompt_variant (st : AppState) (adapterResult : Except String String)
    (h : GeminiService.jsTruthy st.contentImage = true) :
    ((handleGenerate st adapterResult).2.map GenerateCall.prompt) =
      some (if GeminiService.jsTruthy st.styleImage then PROMPT_WITH_STYLE
            else PROMPT_SINGLE) ∧
    PROMPT_WITH_STYLE ≠ PROMPT_SINGLE := by
  refine ⟨?_, by decide⟩
  unfold handleGenerate
  rw [h]
  cases adapterResult <;> simp

/-- C7 witness: with both images present and an edited prompt state, the
with-style variant is passed. -/
theorem c7_witness :
    ((handleGenerate
        { status := AppStatus.IDLE, contentImage := some "CIMG",
          styleImage := some "SIMG", resultImage := none, errorMsg := none,
          prompt := "user edited text" }
        (Except.ok "RESULT")).2.map GenerateCall.prompt) =
      some PROMPT_WITH_STYLE := by
  have h := (c7_prompt_variant
    { status := AppStatus.IDLE, contentImage := some "CIMG",
      styleImage := some "SIMG", resultImage := none, errorMsg := none,
      prompt := "user edited text" } (Except.ok "RESULT") (by decide)).1
  simpa [GeminiService.jsTruthy] using h

/-- C9 (confirmed): a file whose MIME type does not start with `image/`, or
whose size exceeds 5 MiB, makes file intake set the corresponding error
message and return without touching the stored images and without starting
a read. -/
theorem c9_invalid_file_rejected (st : AppState) (kind : FileKind) (f : FileInfo)
    (h : ¬ jsStartsWith f.type "image/" = true ∨ f.size > 5 * 1024 * 1024) :
    (handleFileChange st kind (some f)).state.contentImage = st.contentImage ∧
    (handleFileChange st kind (some f)).state.styleImage = st.styleImage ∧
    (handleFileChange st kind (some f)).state.resultImage = st.resultImage ∧
    (handleFileChange st kind (some f)).readStarted = false ∧
    (handleFileChange st kind (some f)).state.errorMsg =
      some (if jsStartsWith f.type "image/" then sizeErrMsg else typeErrMsg) := by
  by_cases ht : jsStartsWith f.type "image/" = true
  · have hsize : f.size > 5 * 1024 * 1024 := by
      rcases h with h1 | h1
      · exact absurd ht h1
      · exact h1
    simp only [handleFileChange]
    rw [if_neg (not_not_intro ht), if_pos hsize]
    simp [ht]
  · simp only [handleFileChange]
    rw [if_pos ht]
    simp [ht]

/-- C9 witness: a text file is rejected with the type error; an oversized
image is rejected with the size error; neither starts a read. -/
theorem c9_witness :
    (handleFileChange initState FileKind.content
      (some ⟨"text/plain", 10⟩)).readStarted = false ∧
    (handleFileChange initState FileKind.content
      (some ⟨"text/plain", 10⟩)).state.errorMsg = some typeErrMsg ∧
    (handleFileChange initState FileKind.style
      (some ⟨"image/png", 6000000⟩)).readStarted = false ∧
    (handleFileChange initState FileKind.style
      (some ⟨"image/png", 6000000⟩)).state.errorMsg = some sizeErrMsg := by
  have h1 := c9_invalid_file_rejected initState FileKind.content
    ⟨"text/plain", 10⟩ (Or.inl (by decide))
  have h2 := c9_invalid_file_rejected initState FileKind.style
    ⟨"image/png", 6000000⟩ (Or.inr (by decide))
  refine ⟨h1.2.2.2.1, ?_, h2.2.2.2.1, ?_⟩
  · have h3 := h1.2.2.2.2
    simpa [jsStartsWith] using h3
  · have h3 := h2.2.2.2.2
    simpa [jsStartsWith] using h3

theorem handleFileChange_status (st : AppState) (kind : FileKind)
    (file : Option FileInfo) :
    (handleFileChange st kind file).state.status = st.status := by
  rcases file with _ | ⟨f⟩
  · rfl
  · simp only [handleFileChange]
    by_cases ht : jsStartsWith f.type "image/" = true
    · rw [if_neg (not_not_intro ht)]
      by_cases hs : f.size > 5 * 1024 * 1024
      · rw [if_pos hs]
      · rw [if_neg hs]
        cases kind <;> rfl
    · rw [if_pos ht]

theorem step_status_ne_uploading (st : AppState) (a : UIAction)
    (h : st.status ≠ AppStatus.UPLOADING) :
    (step st a).status ≠ AppStatus.UPLOADING := by
  cases a with
  | fileSelect kind file =>
    rw [step, handleFileChange_status]
    exact h
  | readComplete kind ok dataUrl =>
    rw [step]
    unfold handleReadComplete
    cases ok with
    | true => cases kind <;> simpa using h
    | false => simpa using h
  | generate adapterResult =>
    rw [step]
    unfold handleGenerate
    by_cases hc : GeminiService.jsTruthy st.contentImage = false
    · rw [if_pos hc]
      exact h
    · rw [if_neg hc]
      cases adapterResult <;> simp
  | clear kind =>
    rw [step]
    cases kind <;> simp [clearImage]
  | download =>
    rw [step]
    exact h

theorem foldl_step_status_ne_uploading (acts : List UIAction) (st : AppState)
    (h : st.status ≠ AppStatus.UPLOADING) :
    (acts.foldl step st).status ≠ AppStatus.UPLOADING := by
  induction acts generalizing st with
  | nil => simpa using h
  | cons a rest ih =>
    rw [List.foldl_cons]
    exact ih (step st a) (step_status_ne_uploading st a h)

/-- C10 (confirmed): starting from the initial IDLE state, no sequence of
UI operations (file intake, read completion, generate, clear, download)
ever reaches a state whose status is `UPLOADING` — that enum value is
unreachable. -/
theorem c10_uploading_unreachable (acts : List UIAction) :
    (acts.foldl step initState).status ≠ AppStatus.UPLOADING :=
  foldl_step_status_ne_uploading acts initState (by decide)

end App
